import Mathlib

/-!
Verification of the two process-level adapters of this repository:
the embedding CLI (src/packages/embedder/python/embed.py) and the
persistent extraction server (src/packages/extractor/python/extract_server.py).

Both scripts are line-oriented stdin/stdout drivers around an external
library call.  The external calls (the remote voyage client, the local
sentence-transformer model, the docling converter) are not part of the
repository: they are modelled as oracle parameters.  Floating-point
embedding payloads are never inspected by the scripts (only carried and
counted), so the scalar type of an embedding vector is modelled by Int.
-/

namespace DocxCorpus

/-! ## Embedding CLI: data model (embed.py) -/

/-- Scalar of an embedding vector.  The scripts never compute with the
floats, only serialize them, so an opaque numeric stand-in suffices. -/
abbrev Scalar := Int

/-- One batch-mode input record, as json.loads produces it: a JSON object
in which the fields id and text may each be present or absent
(dict access raises KeyError when absent). -/
structure Doc where
  docId : Option String
  docText : Option String
  deriving DecidableEq, Repr

/-- One raw stdin line of batch mode, after line.strip() and json.loads:
blank (skipped), malformed JSON (json.loads raises, uncaught), or a
parsed object. -/
inductive InLine where
  | blank
  | malformed
  | doc (d : Doc)
  deriving DecidableEq, Repr

/-- How an invocation of the embedding CLI terminates:
ok — sys.exit(0) / normal return;
errJson m — json error object m printed on stderr, sys.exit(1);
crash m — uncaught Python exception m (traceback, nonzero exit). -/
inductive Term where
  | ok
  | errJson (msg : String)
  | crash (msg : String)
  deriving DecidableEq, Repr

/-- One batch-mode stdout line: the JSON object with id, embedding and
dimensions printed for one input record. -/
structure BatchResult where
  id : String
  embedding : List Scalar
  dimensions : Nat
  deriving DecidableEq, Repr

/-- The single-mode stdout object with embedding and dimensions. -/
structure SingleResult where
  embedding : List Scalar
  dimensions : Nat
  deriving DecidableEq, Repr

/-- The embedding backend selected by get_embedder: the remote voyage
client or a local sentence-transformer model loaded by identifier. -/
inductive Backend where
  | voyage
  | localModel (model_id : String)
  deriving DecidableEq, Repr

/-- The alias table model_map of get_embedder. -/
def model_map (name : String) : Option String :=
  if name = "minilm" then some "all-MiniLM-L6-v2"
  else if name = "bge-m3" then some "BAAI/bge-m3"
  else none

/-- get_embedder: select a backend by model name and fix the dimension
count for the run.  env models os.environ.get; localDims models
SentenceTransformer(model_id).get_sentence_embedding_dimension().
For voyage-lite a missing or empty VOYAGE_API_KEY raises ValueError
(Python truthiness: `if not api_key`) before any client is built, hence
before any network call; otherwise dimensions is the constant 1024.
For every other name the alias table is consulted, the named model is
loaded and its queried dimension is used. -/
def get_embedder (model_name : String) (env : String → Option String)
    (localDims : String → Nat) : Except String (Backend × Nat) :=
  if model_name = "voyage-lite" then
    match env "VOYAGE_API_KEY" with
    | none =>
        .error "VOYAGE_API_KEY environment variable required for voyage-lite model"
    | some k =>
        if k = "" then
          .error "VOYAGE_API_KEY environment variable required for voyage-lite model"
        else .ok (.voyage, 1024)
  else
    let model_id := (model_map model_name).getD model_name
    .ok (.localModel model_id, localDims model_id)

/-- The batch-mode stdin reading loop: strip each line, skip blanks,
json.loads the rest.  none models the uncaught JSONDecodeError of a
malformed line (the process dies before producing any stdout). -/
def readDocs : List InLine → Option (List Doc)
  | [] => some []
  | .blank :: rest => readDocs rest
  | .malformed :: _ => none
  | .doc d :: rest => (readDocs rest).map (d :: ·)

/-- The batch-mode output loop `for doc, emb in zip(docs, embeddings)`:
zip stops at the shorter list; each iteration prints one result line
carrying doc id, the embedding and the shared dimensions; accessing a
missing id raises KeyError, leaving the lines already printed on stdout
and killing the process. -/
def emitLoop (dims : Nat) : List Doc → List (List Scalar) → List BatchResult × Term
  | [], _ => ([], .ok)
  | _ :: _, [] => ([], .ok)
  | d :: ds, e :: es =>
    match d.docId with
    | none => ([], .crash "KeyError: id")
    | some i =>
      let rest := emitLoop dims ds es
      (⟨i, e, dims⟩ :: rest.1, rest.2)

/-- The list comprehension over records projecting one field, as in
texts = [d[key] for d in docs]: KeyError (none) when a record lacks the
field. -/
def pluck (field : Doc → Option String) : List Doc → Option (List String)
  | [] => some []
  | d :: ds =>
    match field d with
    | none => none
    | some t => (pluck field ds).map (t :: ·)

/-- Batch mode after the records are read: exit 0 with no output when
there are zero records; otherwise gather the texts (KeyError on a record
without text is uncaught), make the single backend call over the whole
batch (its failure prints one error object on stderr and exits 1 with no
stdout), then run the output loop. -/
def runBatchDocs (backend : List String → Except String (List (List Scalar)))
    (dims : Nat) (docs : List Doc) : List BatchResult × Term :=
  if docs.isEmpty then ([], .ok)
  else
    match pluck Doc.docText docs with
    | none => ([], .crash "KeyError: text")
    | some texts =>
      match backend texts with
      | .error e => ([], .errJson e)
      | .ok embeddings => emitLoop dims docs embeddings

/-- main with the batch flag: build the embedder (failure prints one
error object on stderr and exits 1), read the records, run the batch.
backendImpl is the oracle giving each backend its library behaviour. -/
def mainBatch (model_name : String) (env : String → Option String)
    (localDims : String → Nat)
    (backendImpl : Backend → List String → Except String (List (List Scalar)))
    (input : List InLine) : List BatchResult × Term :=
  match get_embedder model_name env localDims with
  | .error e => ([], .errJson e)
  | .ok (b, dims) =>
    match readDocs input with
    | none => ([], .crash "json.decoder.JSONDecodeError")
    | some docs => runBatchDocs (backendImpl b) dims docs

/-- Python str.strip() with no arguments: drop leading and trailing
whitespace.  Defined over the character list so that concrete instances
evaluate. -/
def pyStrip (s : String) : String :=
  ⟨((s.data.dropWhile Char.isWhitespace).reverse.dropWhile
      Char.isWhitespace).reverse⟩

/-- Single mode on the stripped stdin text: empty text prints an error
object and exits 1; a backend failure likewise; otherwise the first
returned embedding is printed with the fixed dimensions
(embeddings[0] on an empty backend reply raises IndexError). -/
def runSingleText (backend : List String → Except String (List (List Scalar)))
    (dims : Nat) (text : String) : Option SingleResult × Term :=
  if text = "" then (none, .errJson "No text provided")
  else
    match backend [text] with
    | .error e => (none, .errJson e)
    | .ok [] => (none, .crash "IndexError: list index out of range")
    | .ok (e :: _) => (some ⟨e, dims⟩, .ok)

/-- main without the batch flag: build the embedder, read all of stdin
as one blob, strip it, run single mode. -/
def mainSingle (model_name : String) (env : String → Option String)
    (localDims : String → Nat)
    (backendImpl : Backend → List String → Except String (List (List Scalar)))
    (input : String) : Option SingleResult × Term :=
  match get_embedder model_name env localDims with
  | .error e => (none, .errJson e)
  | .ok (b, dims) => runSingleText (backendImpl b) dims (pyStrip input)

/-! ## Extraction server: data model (extract_server.py) -/

/-- A JSON-like Python value, as docling's export_to_dict produces and
json.dumps consumes: the structured extraction is a dict of these. -/
inductive JVal where
  | str (s : String)
  | num (n : Int)
  | bool (b : Bool)
  | null
  | arr (xs : List JVal)
  | obj (fields : List (String × JVal))

/-- Python dict lookup on the assoc-list model (keys of a Python dict are
unique; the first match is the binding). -/
def lookupJ (d : List (String × JVal)) (key : String) : Option JVal :=
  match d with
  | [] => none
  | (k, v) :: rest => if k = key then some v else lookupJ rest key

/-- In-place assignment to an existing key of a Python dict: the binding
keeps its position, only its value changes. -/
def setKey (d : List (String × JVal)) (key : String) (v : JVal) :
    List (String × JVal) :=
  d.map (fun kv => match kv with | (k, w) => if k = key then (k, v) else (k, w))

/-- The list comprehension inside strip_image_data: for each picture
entry rebuild the dict without its image key.  A non-dict entry makes
pic.items() raise (AttributeError), modelled as an error. -/
def stripPics : List JVal → Except String (List JVal)
  | [] => .ok []
  | .obj fls :: rest =>
    match stripPics rest with
    | .error e => .error e
    | .ok rest' => .ok (.obj (fls.filter (fun kv => kv.1 ≠ "image")) :: rest')
  | _ :: _ => .error "AttributeError: object has no attribute items"

/-- strip_image_data: when the extraction has a pictures key, replace its
value by the list of picture entries with the image field removed; a
dict without that key is returned unchanged.  Iterating a non-list
pictures value, or a non-dict entry, raises in Python and is an error
here. -/
def strip_image_data (extraction : List (String × JVal)) :
    Except String (List (String × JVal)) :=
  match lookupJ extraction "pictures" with
  | none => .ok extraction
  | some (.arr pics) =>
    match stripPics pics with
    | .error e => .error e
    | .ok pics' => .ok (setKey extraction "pictures" (.arr pics'))
  | some _ => .error "TypeError: pictures value is not iterable dicts"

/-- Python len() on a JSON-like value: defined for sequences and dicts,
raising TypeError elsewhere.  Used for extraction.get of tables and
pictures. -/
def pyLen : JVal → Except String Nat
  | .arr xs => .ok xs.length
  | .str s => .ok s.length
  | .obj fls => .ok fls.length
  | _ => .error "TypeError: object has no len"

/-- Python str.split() with no arguments: split on runs of whitespace,
discarding empty tokens. -/
def pySplit (s : String) : List String :=
  (s.split Char.isWhitespace).filter (fun t => t ≠ "")

/-- dict.get with a default value. -/
def dictGet (d : List (String × JVal)) (key : String) (dflt : JVal) : JVal :=
  (lookupJ d key).getD dflt

/-- What converter.convert(file_path).document yields: the markdown
rendering (export_to_markdown) and the structured dict
(export_to_dict). -/
structure ConvDoc where
  markdown : String
  dict : List (String × JVal)

/-- The success payload built by extract. -/
structure ExtractResult where
  text : String
  wordCount : Nat
  charCount : Nat
  tableCount : Nat
  imageCount : Nat
  extraction : List (String × JVal)

/-- extract: convert the file, render markdown, strip image data from
the structured dict, and assemble the payload.  convert is the docling
converter oracle; its error is any exception the conversion raises. -/
def extract (convert : String → Except String ConvDoc) (file_path : String) :
    Except String ExtractResult :=
  match convert file_path with
  | .error e => .error e
  | .ok doc =>
    let text := doc.markdown
    match strip_image_data doc.dict with
    | .error e => .error e
    | .ok extraction =>
      match pyLen (dictGet extraction "tables" (.arr [])) with
      | .error e => .error e
      | .ok tableCount =>
        match pyLen (dictGet extraction "pictures" (.arr [])) with
        | .error e => .error e
        | .ok imageCount =>
          .ok { text := text
                wordCount := (pySplit text).length
                charCount := text.length
                tableCount := tableCount
                imageCount := imageCount
                extraction := extraction }

/-- One stdout line of the extraction server. -/
inductive ServerOut where
  | ready
  | initialized
  | success (r : ExtractResult)
  | failure (err : String)

/-- The body of the serving loop for one stdin line: strip it, skip it
when blank, answer File not found without touching the converter when
the path does not exist, otherwise convert inside the try block,
emitting the success payload or the per-document error object. -/
def serveLine (fsExists : String → Bool)
    (convert : String → Except String ConvDoc) (line : String) :
    List ServerOut :=
  let file_path := pyStrip line
  if file_path = "" then []
  else if fsExists file_path = false then
    [.failure ("File not found: " ++ file_path)]
  else
    match extract convert file_path with
    | .ok r => [.success r]
    | .error e => [.failure e]

/-- main of the extraction server: print the ready line, build the
converter once, print the initialized line, then serve every stdin line
until the stream closes.  fsExists models Path(p).exists(). -/
def serverMain (fsExists : String → Bool)
    (convert : String → Except String ConvDoc) (lines : List String) :
    List ServerOut :=
  .ready :: .initialized :: lines.flatMap (serveLine fsExists convert)

/-! ## Helper lemmas for the embedding CLI -/

theorem pluck_length {f : Doc → Option String} :
    ∀ {docs : List Doc} {xs : List String},
      pluck f docs = some xs → xs.length = docs.length := by
  intro docs
  induction docs with
  | nil => intro xs h; simp [pluck] at h; simp [h.symm]
  | cons d ds ih =>
    intro xs h
    simp only [pluck] at h
    cases hf : f d with
    | none => rw [hf] at h; exact absurd h (by simp)
    | some t =>
      rw [hf] at h
      cases hp : pluck f ds with
      | none => rw [hp] at h; exact absurd h (by simp)
      | some ys =>
        rw [hp] at h
        simp at h
        subst h
        simp [ih hp]

theorem emitLoop_ids (dims : Nat) :
    ∀ (docs : List Doc) (ids : List String) (embs : List (List Scalar)),
      pluck Doc.docId docs = some ids → embs.length = docs.length →
      (emitLoop dims docs embs).1.map BatchResult.id = ids ∧
      (emitLoop dims docs embs).2 = Term.ok := by
  intro docs
  induction docs with
  | nil =>
    intro ids embs h _
    simp [pluck] at h
    simp [emitLoop, h.symm]
  | cons d ds ih =>
    intro ids embs h hlen
    cases embs with
    | nil => simp at hlen
    | cons e es =>
      simp only [pluck] at h
      cases hf : d.docId with
      | none => rw [hf] at h; exact absurd h (by simp)
      | some i =>
        rw [hf] at h
        cases hp : pluck Doc.docId ds with
        | none => rw [hp] at h; exact absurd h (by simp)
        | some ids' =>
          rw [hp] at h
          simp at h
          subst h
          simp only [List.length_cons, Nat.add_right_cancel_iff] at hlen
          have := ih ids' es hp hlen
          simp [emitLoop, hf, this.1, this.2]

theorem emitLoop_mem (dims : Nat) :
    ∀ (docs : List Doc) (embs : List (List Scalar)) (r : BatchResult),
      r ∈ (emitLoop dims docs embs).1 →
      r.dimensions = dims ∧ r.embedding ∈ embs := by
  intro docs
  induction docs with
  | nil => intro embs r h; simp [emitLoop] at h
  | cons d ds ih =>
    intro embs r h
    cases embs with
    | nil => simp [emitLoop] at h
    | cons e es =>
      cases hf : d.docId with
      | none => rw [emitLoop, hf] at h; simp at h
      | some i =>
        rw [emitLoop, hf] at h
        simp only [List.mem_cons] at h
        cases h with
        | inl h => subst h; simp
        | inr h =>
          have := ih es r h
          exact ⟨this.1, List.mem_cons_of_mem e this.2⟩

theorem readDocs_blank :
    ∀ {input : List InLine}, (∀ l ∈ input, l = InLine.blank) →
      readDocs input = some [] := by
  intro input
  induction input with
  | nil => intro _; rfl
  | cons l ls ih =>
    intro h
    have hl : l = InLine.blank := h l (List.mem_cons_self l ls)
    subst hl
    exact ih (fun x hx => h x (List.mem_cons_of_mem _ hx))

/-! ## Claims about the embedding CLI -/

/-- C1: In batch mode, for every input of N records where each non-blank
line parses as a JSON object containing fields id and text, the CLI
prints exactly N JSON result lines on stdout, in the order the records
were read, the k-th output id equal to the k-th record id, given the
backend call returns one embedding per input text. -/
theorem batch_output_count_and_ids
    (model_name : String) (env : String → Option String)
    (localDims : String → Nat)
    (backendImpl : Backend → List String → Except String (List (List Scalar)))
    (input : List InLine) (docs : List Doc) (ids texts : List String)
    (b : Backend) (dims : Nat) (embs : List (List Scalar))
    (hemb : get_embedder model_name env localDims = .ok (b, dims))
    (hread : readDocs input = some docs)
    (hids : pluck Doc.docId docs = some ids)
    (htexts : pluck Doc.docText docs = some texts)
    (hback : backendImpl b texts = .ok embs)
    (hlen : embs.length = docs.length) :
    (mainBatch model_name env localDims backendImpl input).1.length = docs.length ∧
    (mainBatch model_name env localDims backendImpl input).1.map BatchResult.id = ids := by
  have hmain : mainBatch model_name env localDims backendImpl input =
      runBatchDocs (backendImpl b) dims docs := by
    simp [mainBatch, hemb, hread]
  cases docs with
  | nil =>
    simp [pluck] at hids
    simp [hmain, runBatchDocs, hids.symm]
  | cons d ds =>
    have hrun : runBatchDocs (backendImpl b) dims (d :: ds) =
        emitLoop dims (d :: ds) embs := by
      simp [runBatchDocs, htexts, hback]
    have h := emitLoop_ids dims (d :: ds) ids embs hids hlen
    refine ⟨?_, ?_⟩
    · rw [hmain, hrun]
      have hl := congrArg List.length h.1
      simpa [pluck_length hids] using hl
    · rw [hmain, hrun]
      exact h.1

/-- C1 witness at a concrete three-line input with two records. -/
theorem batch_output_count_and_ids_w :
    (mainBatch "minilm" (fun _ => none) (fun _ => 4)
        (fun _ ts => .ok (ts.map (fun _ => [(0 : Scalar)])))
        [.blank, .doc ⟨some "a", some "x"⟩, .doc ⟨some "b", some "y"⟩]).1.length = 2 ∧
    (mainBatch "minilm" (fun _ => none) (fun _ => 4)
        (fun _ ts => .ok (ts.map (fun _ => [(0 : Scalar)])))
        [.blank, .doc ⟨some "a", some "x"⟩, .doc ⟨some "b", some "y"⟩]).1.map
      BatchResult.id = ["a", "b"] :=
  batch_output_count_and_ids "minilm" (fun _ => none) (fun _ => 4)
    (fun _ ts => .ok (ts.map (fun _ => [(0 : Scalar)])))
    [.blank, .doc ⟨some "a", some "x"⟩, .doc ⟨some "b", some "y"⟩]
    [⟨some "a", some "x"⟩, ⟨some "b", some "y"⟩] ["a", "b"] ["x", "y"]
    (.localModel "all-MiniLM-L6-v2") 4 [[0], [0]]
    rfl rfl rfl rfl rfl rfl

/-- C2: every successful response carries dimensions equal to the length
of its embedding vector, and dimensions is fixed once per model at
startup: 1024 for voyage-lite, the queried value for local models.  The
backend hypothesis is the library contract that every returned vector
has the advertised dimensionality. -/
theorem dimensions_fixed_and_match
    (model_name : String) (env : String → Option String)
    (localDims : String → Nat)
    (backendImpl : Backend → List String → Except String (List (List Scalar)))
    (b : Backend) (dims : Nat)
    (hemb : get_embedder model_name env localDims = .ok (b, dims))
    (hback : ∀ ts embs, backendImpl b ts = .ok embs → ∀ v ∈ embs, v.length = dims) :
    (∀ input r, r ∈ (mainBatch model_name env localDims backendImpl input).1 →
        r.dimensions = r.embedding.length ∧ r.dimensions = dims) ∧
    (∀ input r, (mainSingle model_name env localDims backendImpl input).1 = some r →
        r.dimensions = r.embedding.length ∧ r.dimensions = dims) ∧
    (∀ env2 ld2 p, get_embedder "voyage-lite" env2 ld2 = .ok p → p.2 = 1024) ∧
    (∀ name env2 ld2, name ≠ "voyage-lite" →
        get_embedder name env2 ld2 =
          .ok (.localModel ((model_map name).getD name),
               ld2 ((model_map name).getD name))) := by
  refine ⟨?_, ?_, ?_, ?_⟩
  · intro input r hr
    simp only [mainBatch, hemb] at hr
    cases hdocs : readDocs input with
    | none => simp only [hdocs] at hr; simp at hr
    | some docs =>
      simp only [hdocs, runBatchDocs] at hr
      by_cases hde : docs.isEmpty
      · simp only [if_pos hde] at hr; simp at hr
      · simp only [if_neg hde] at hr
        cases htx : pluck Doc.docText docs with
        | none => simp only [htx] at hr; simp at hr
        | some texts =>
          simp only [htx] at hr
          cases hbe : backendImpl b texts with
          | error e => simp only [hbe] at hr; simp at hr
          | ok embs =>
            simp only [hbe] at hr
            have hm := emitLoop_mem dims docs embs r hr
            have hv := hback texts embs hbe r.embedding hm.2
            exact ⟨hm.1.trans hv.symm, hm.1⟩
  · intro input r hr
    simp only [mainSingle, hemb, runSingleText] at hr
    by_cases ht : pyStrip input = ""
    · simp only [if_pos ht] at hr; simp at hr
    · simp only [if_neg ht] at hr
      cases hbe : backendImpl b [pyStrip input] with
      | error e => simp only [hbe] at hr; simp at hr
      | ok embs =>
        cases embs with
        | nil => simp only [hbe] at hr; simp at hr
        | cons e es =>
          simp only [hbe] at hr
          have hv := hback [pyStrip input] (e :: es) hbe e (List.mem_cons_self e es)
          have hre : SingleResult.mk e dims = r := by simpa using hr
          rw [← hre]
          exact ⟨hv.symm, rfl⟩
  · intro env2 ld2 p h
    unfold get_embedder at h
    rw [if_pos rfl] at h
    cases hk : env2 "VOYAGE_API_KEY" with
    | none => simp only [hk] at h; simp at h
    | some k =>
      simp only [hk] at h
      by_cases hke : k = ""
      · rw [if_pos hke] at h; exact absurd h (by simp)
      · rw [if_neg hke] at h
        injection h with h2
        rw [← h2]
  · intro name env2 ld2 hne
    simp [get_embedder, hne]

/-- C2 witness at a concrete local model whose backend always answers
with vectors of the advertised length 4. -/
theorem dimensions_fixed_and_match_w :
    (∀ input r,
        r ∈ (mainBatch "minilm" (fun _ => none) (fun _ => 4)
              (fun _ ts => .ok (ts.map (fun _ => [(1 : Scalar), 2, 3, 4]))) input).1 →
        r.dimensions = r.embedding.length ∧ r.dimensions = 4) ∧
    (∀ input r,
        (mainSingle "minilm" (fun _ => none) (fun _ => 4)
            (fun _ ts => .ok (ts.map (fun _ => [(1 : Scalar), 2, 3, 4]))) input).1 =
          some r →
        r.dimensions = r.embedding.length ∧ r.dimensions = 4) ∧
    (∀ env2 ld2 p, get_embedder "voyage-lite" env2 ld2 = .ok p → p.2 = 1024) ∧
    (∀ name env2 ld2, name ≠ "voyage-lite" →
        get_embedder name env2 ld2 =
          .ok (.localModel ((model_map name).getD name),
               ld2 ((model_map name).getD name))) :=
  dimensions_fixed_and_match "minilm" (fun _ => none) (fun _ => 4)
    (fun _ ts => .ok (ts.map (fun _ => [(1 : Scalar), 2, 3, 4])))
    (.localModel "all-MiniLM-L6-v2") 4 rfl
    (by
      intro ts embs h v hv
      simp only [Except.ok.injEq] at h
      subst h
      obtain ⟨t, _, hv⟩ := List.mem_map.mp hv
      rw [← hv]
      rfl)

/-- C5: with model voyage-lite and VOYAGE_API_KEY absent from the
environment, both modes fail with the configuration error before any
network call (the outcome is the same for every backend oracle): one
JSON error object on stderr, nonzero exit, nothing on stdout. -/
theorem voyage_missing_key_config_error
    (env : String → Option String) (localDims : String → Nat)
    (backendImpl : Backend → List String → Except String (List (List Scalar)))
    (input : List InLine) (single : String)
    (hkey : env "VOYAGE_API_KEY" = none) :
    mainBatch "voyage-lite" env localDims backendImpl input =
      ([], .errJson
        "VOYAGE_API_KEY environment variable required for voyage-lite model") ∧
    mainSingle "voyage-lite" env localDims backendImpl single =
      (none, .errJson
        "VOYAGE_API_KEY environment variable required for voyage-lite model") := by
  have h : get_embedder "voyage-lite" env localDims =
      .error "VOYAGE_API_KEY environment variable required for voyage-lite model" := by
    simp [get_embedder, hkey]
  exact ⟨by simp [mainBatch, h], by simp [mainSingle, h]⟩

/-- C5 witness with an empty environment and a backend that would
succeed if it were ever consulted. -/
theorem voyage_missing_key_config_error_w :
    mainBatch "voyage-lite" (fun _ => none) (fun _ => 4)
        (fun _ ts => .ok (ts.map (fun _ => [(0 : Scalar)])))
        [.doc ⟨some "a", some "x"⟩] =
      ([], .errJson
        "VOYAGE_API_KEY environment variable required for voyage-lite model") ∧
    mainSingle "voyage-lite" (fun _ => none) (fun _ => 4)
        (fun _ ts => .ok (ts.map (fun _ => [(0 : Scalar)]))) "hello" =
      (none, .errJson
        "VOYAGE_API_KEY environment variable required for voyage-lite model") :=
  voyage_missing_key_config_error (fun _ => none) (fun _ => 4)
    (fun _ ts => .ok (ts.map (fun _ => [(0 : Scalar)])))
    [.doc ⟨some "a", some "x"⟩] "hello" rfl

/-- C8: in batch mode an input with zero non-blank lines produces no
stdout lines, no stderr error and a zero exit, for every backend oracle
(the backend is never called), provided the embedder was built. -/
theorem empty_batch_silent_success
    (model_name : String) (env : String → Option String)
    (localDims : String → Nat)
    (backendImpl : Backend → List String → Except String (List (List Scalar)))
    (input : List InLine) (b : Backend) (dims : Nat)
    (hemb : get_embedder model_name env localDims = .ok (b, dims))
    (hblank : ∀ l ∈ input, l = InLine.blank) :
    mainBatch model_name env localDims backendImpl input = ([], Term.ok) := by
  simp [mainBatch, hemb, readDocs_blank hblank, runBatchDocs]

/-- C8 witness: two blank lines, a backend that would fail if called. -/
theorem empty_batch_silent_success_w :
    mainBatch "minilm" (fun _ => none) (fun _ => 4)
        (fun _ _ => .error "backend must not be called")
        [.blank, .blank] = ([], Term.ok) :=
  empty_batch_silent_success "minilm" (fun _ => none) (fun _ => 4)
    (fun _ _ => .error "backend must not be called") [.blank, .blank]
    (.localModel "all-MiniLM-L6-v2") 4 rfl (by decide)

/-- C10: a batch whose second record lacks an id: the backend call
succeeds, the first result line is printed, then the uncaught KeyError
kills the process — failure of the invocation with nonempty per-record
output. -/
theorem batch_partial_output_then_crash :
    (mainBatch "minilm" (fun _ => none) (fun _ => 4)
        (fun _ ts => .ok (ts.map (fun _ => [(0 : Scalar)])))
        [.doc ⟨some "a", some "x"⟩, .doc ⟨none, some "y"⟩]).1 =
      [⟨"a", [0], 4⟩] ∧
    (mainBatch "minilm" (fun _ => none) (fun _ => 4)
        (fun _ ts => .ok (ts.map (fun _ => [(0 : Scalar)])))
        [.doc ⟨some "a", some "x"⟩, .doc ⟨none, some "y"⟩]).2 =
      Term.crash "KeyError: id" :=
  ⟨rfl, rfl⟩

/-! ## Helper lemmas for the extraction server -/

theorem filter_not_image_idem (fls : List (String × JVal)) :
    (fls.filter (fun kv => kv.1 ≠ "image")).filter (fun kv => kv.1 ≠ "image") =
      fls.filter (fun kv => kv.1 ≠ "image") := by
  induction fls with
  | nil => rfl
  | cons kv rest ih =>
    by_cases hk : kv.1 = "image"
    · simp [List.filter_cons, hk, ih]
    · simp [List.filter_cons, hk, ih]

theorem stripPics_spec :
    ∀ (pics pics' : List JVal), stripPics pics = .ok pics' →
      pics'.length = pics.length ∧
      (∀ i, i < pics.length → ∃ fls, pics[i]? = some (JVal.obj fls) ∧
        pics'[i]? = some (JVal.obj (fls.filter (fun kv => kv.1 ≠ "image")))) ∧
      stripPics pics' = .ok pics' := by
  intro pics
  induction pics with
  | nil =>
    intro pics' h
    simp only [stripPics] at h
    injection h with h
    subst h
    exact ⟨rfl, fun i hi => absurd hi (by simp), rfl⟩
  | cons p rest ih =>
    intro pics' h
    cases p with
    | obj fls =>
      simp only [stripPics] at h
      cases hrest : stripPics rest with
      | error e => exact Except.noConfusion (hrest ▸ h)
      | ok rest' =>
        simp only [hrest] at h
        injection h with h
        subst h
        obtain ⟨hlen, hget, hidem⟩ := ih rest' hrest
        refine ⟨by simp [hlen], ?_, ?_⟩
        · intro i hi
          cases i with
          | zero => exact ⟨fls, by simp, by simp⟩
          | succ n =>
            have hn : n < rest.length := by
              simpa using Nat.lt_of_succ_lt_succ hi
            obtain ⟨fls2, h1, h2⟩ := hget n hn
            exact ⟨fls2, by simpa using h1, by simpa using h2⟩
        · simp only [stripPics, hidem, filter_not_image_idem]
    | str s => simp [stripPics] at h
    | num n => simp [stripPics] at h
    | bool b => simp [stripPics] at h
    | null => simp [stripPics] at h
    | arr xs => simp [stripPics] at h

theorem stripPics_of_obj :
    ∀ pics : List JVal, (∀ p ∈ pics, ∃ fls, p = JVal.obj fls) →
      ∃ pics', stripPics pics = .ok pics' := by
  intro pics
  induction pics with
  | nil => intro _; exact ⟨[], rfl⟩
  | cons p rest ih =>
    intro h
    obtain ⟨fls, hp⟩ := h p (List.mem_cons_self p rest)
    subst hp
    obtain ⟨rest', hrest⟩ := ih (fun q hq => h q (List.mem_cons_of_mem _ hq))
    exact ⟨.obj (fls.filter (fun kv => kv.1 ≠ "image")) :: rest',
      by simp only [stripPics, hrest]⟩

theorem setKey_length (d : List (String × JVal)) (key : String) (v : JVal) :
    (setKey d key v).length = d.length := by
  simp [setKey]

theorem setKey_getElem (d : List (String × JVal)) (key : String) (v : JVal)
    (i : Nat) :
    (setKey d key v)[i]? =
      (d[i]?).map (fun kv => if kv.1 = key then (kv.1, v) else kv) := by
  simp only [setKey, List.getElem?_map]

theorem setKey_cons (k0 : String) (v0 : JVal) (rest : List (String × JVal))
    (key : String) (v : JVal) :
    setKey ((k0, v0) :: rest) key v =
      (if k0 = key then (k0, v) else (k0, v0)) :: setKey rest key v := rfl

theorem lookupJ_cons (k0 : String) (v0 : JVal) (rest : List (String × JVal))
    (key : String) :
    lookupJ ((k0, v0) :: rest) key =
      if k0 = key then some v0 else lookupJ rest key := rfl

theorem lookupJ_setKey_eq (key : String) (v : JVal) :
    ∀ (d : List (String × JVal)) (w : JVal), lookupJ d key = some w →
      lookupJ (setKey d key v) key = some v := by
  intro d
  induction d with
  | nil => intro w h; simp [lookupJ] at h
  | cons kv rest ih =>
    intro w h
    obtain ⟨k0, v0⟩ := kv
    by_cases hk : k0 = key
    · subst hk
      rw [setKey_cons, if_pos rfl, lookupJ_cons, if_pos rfl]
    · rw [lookupJ_cons, if_neg hk] at h
      rw [setKey_cons, if_neg hk, lookupJ_cons, if_neg hk]
      exact ih w h

theorem lookupJ_setKey_ne (key key2 : String) (v : JVal) (hne : key2 ≠ key) :
    ∀ d : List (String × JVal),
      lookupJ (setKey d key v) key2 = lookupJ d key2 := by
  intro d
  induction d with
  | nil => rfl
  | cons kv rest ih =>
    obtain ⟨k0, v0⟩ := kv
    by_cases hk : k0 = key
    · subst hk
      have hne2 : ¬ (k0 = key2) := fun h => hne h.symm
      rw [setKey_cons, if_pos rfl, lookupJ_cons, lookupJ_cons,
        if_neg hne2, if_neg hne2]
      exact ih
    · rw [setKey_cons, if_neg hk, lookupJ_cons, lookupJ_cons]
      by_cases hk2 : k0 = key2
      · rw [if_pos hk2, if_pos hk2]
      · rw [if_neg hk2, if_neg hk2]
        exact ih

theorem setKey_setKey (key : String) (v : JVal) :
    ∀ d : List (String × JVal),
      setKey (setKey d key v) key v = setKey d key v := by
  intro d
  induction d with
  | nil => rfl
  | cons kv rest ih =>
    obtain ⟨k0, v0⟩ := kv
    by_cases hk : k0 = key
    · subst hk
      rw [setKey_cons, if_pos rfl, setKey_cons, if_pos rfl, ih]
    · rw [setKey_cons, if_neg hk, setKey_cons, if_neg hk, ih]

theorem serveLine_not_found (fsExists : String → Bool)
    (convert : String → Except String ConvDoc) (line : String)
    (hnb : pyStrip line ≠ "") (hex : fsExists (pyStrip line) = false) :
    serveLine fsExists convert line =
      [.failure ("File not found: " ++ pyStrip line)] := by
  simp [serveLine, hnb, hex]

theorem serveLine_conv_error (fsExists : String → Bool)
    (convert : String → Except String ConvDoc) (line e : String)
    (hnb : pyStrip line ≠ "") (hex : fsExists (pyStrip line) = true)
    (hconv : convert (pyStrip line) = .error e) :
    serveLine fsExists convert line = [.failure e] := by
  have hext : extract convert (pyStrip line) = .error e := by
    simp only [extract, hconv]
  simp [serveLine, hnb, hex, hext]

theorem serveLine_not_startup (fsExists : String → Bool)
    (convert : String → Except String ConvDoc) (line : String) :
    ∀ o ∈ serveLine fsExists convert line,
      o ≠ ServerOut.ready ∧ o ≠ ServerOut.initialized := by
  intro o ho
  simp only [serveLine] at ho
  by_cases h1 : pyStrip line = ""
  · rw [if_pos h1] at ho
    exact absurd ho (by simp)
  · rw [if_neg h1] at ho
    by_cases h2 : fsExists (pyStrip line) = false
    · rw [if_pos h2] at ho
      simp only [List.mem_singleton] at ho
      subst ho
      exact ⟨fun hc => ServerOut.noConfusion hc,
             fun hc => ServerOut.noConfusion hc⟩
    · rw [if_neg h2] at ho
      cases hx : extract convert (pyStrip line) with
      | ok r =>
        simp only [hx, List.mem_singleton] at ho
        subst ho
        exact ⟨fun hc => ServerOut.noConfusion hc,
               fun hc => ServerOut.noConfusion hc⟩
      | error e2 =>
        simp only [hx, List.mem_singleton] at ho
        subst ho
        exact ⟨fun hc => ServerOut.noConfusion hc,
               fun hc => ServerOut.noConfusion hc⟩

theorem serverMain_mid (fsExists : String → Bool)
    (convert : String → Except String ConvDoc) (pre post : List String)
    (line : String) :
    serverMain fsExists convert (pre ++ line :: post) =
      .ready :: .initialized ::
        (pre.flatMap (serveLine fsExists convert) ++
          (serveLine fsExists convert line ++
            post.flatMap (serveLine fsExists convert))) := by
  simp [serverMain]

/-! ## Claims about the extraction server -/

/-- C7: whatever stdin holds, stdout begins with the ready line and then
the initialized line, and no later line is a startup line: startup
status strictly precedes every document result. -/
theorem server_startup_lines_first (fsExists : String → Bool)
    (convert : String → Except String ConvDoc) (lines : List String) :
    ∃ results, serverMain fsExists convert lines =
        ServerOut.ready :: ServerOut.initialized :: results ∧
      ∀ o ∈ results, o ≠ ServerOut.ready ∧ o ≠ ServerOut.initialized := by
  refine ⟨lines.flatMap (serveLine fsExists convert), rfl, ?_⟩
  intro o ho
  obtain ⟨l, _, hol⟩ := List.exists_of_mem_flatMap ho
  exact serveLine_not_startup fsExists convert l o hol

/-- C4: a non-blank line naming a nonexistent path yields exactly the
File not found error line, the converter is never consulted (any two
converters give the same answer), and every queued line before and
after is still served. -/
theorem missing_file_reported
    (fsExists : String → Bool)
    (convert convert2 : String → Except String ConvDoc)
    (pre post : List String) (line : String)
    (hnb : pyStrip line ≠ "") (hex : fsExists (pyStrip line) = false) :
    serveLine fsExists convert line =
      [.failure ("File not found: " ++ pyStrip line)] ∧
    serveLine fsExists convert line = serveLine fsExists convert2 line ∧
    serverMain fsExists convert (pre ++ line :: post) =
      .ready :: .initialized ::
        (pre.flatMap (serveLine fsExists convert) ++
          .failure ("File not found: " ++ pyStrip line) ::
            post.flatMap (serveLine fsExists convert)) := by
  have h1 := serveLine_not_found fsExists convert line hnb hex
  have h2 := serveLine_not_found fsExists convert2 line hnb hex
  refine ⟨h1, h1.trans h2.symm, ?_⟩
  rw [serverMain_mid, h1]
  rfl

/-- C4 witness: a missing path between two other queued lines, with two
different converter oracles. -/
theorem missing_file_reported_w :
    serveLine (fun _ => false) (fun _ => Except.error "boom") "gone.docx" =
      [.failure ("File not found: " ++ pyStrip "gone.docx")] ∧
    serveLine (fun _ => false) (fun _ => Except.error "boom") "gone.docx" =
      serveLine (fun _ => false) (fun _ => Except.ok ⟨"hi", []⟩) "gone.docx" ∧
    serverMain (fun _ => false) (fun _ => Except.error "boom")
        (["a.docx"] ++ "gone.docx" :: ["b.docx"]) =
      .ready :: .initialized ::
        (["a.docx"].flatMap
            (serveLine (fun _ => false) (fun _ => Except.error "boom")) ++
          .failure ("File not found: " ++ pyStrip "gone.docx") ::
            ["b.docx"].flatMap
              (serveLine (fun _ => false) (fun _ => Except.error "boom"))) :=
  missing_file_reported (fun _ => false) (fun _ => Except.error "boom")
    (fun _ => Except.ok ⟨"hi", []⟩) ["a.docx"] ["b.docx"] "gone.docx"
    (by decide) rfl

/-- C3: a conversion exception for one line is reported as one failure
line, and the server goes on: the lines before and after are served
exactly as they would be on their own — no per-document failure ends
the loop. -/
theorem conversion_error_isolated
    (fsExists : String → Bool) (convert : String → Except String ConvDoc)
    (pre post : List String) (line e : String)
    (hnb : pyStrip line ≠ "") (hex : fsExists (pyStrip line) = true)
    (hconv : convert (pyStrip line) = .error e) :
    serveLine fsExists convert line = [.failure e] ∧
    serverMain fsExists convert (pre ++ line :: post) =
      .ready :: .initialized ::
        (pre.flatMap (serveLine fsExists convert) ++
          .failure e :: post.flatMap (serveLine fsExists convert)) := by
  have h1 := serveLine_conv_error fsExists convert line e hnb hex hconv
  refine ⟨h1, ?_⟩
  rw [serverMain_mid, h1]
  rfl

/-- C3 witness: a converter that always raises, with a further queued
line that is still served. -/
theorem conversion_error_isolated_w :
    serveLine (fun _ => true) (fun _ => Except.error "bad zip") "doc.docx" =
      [.failure "bad zip"] ∧
    serverMain (fun _ => true) (fun _ => Except.error "bad zip")
        ([] ++ "doc.docx" :: ["next.docx"]) =
      .ready :: .initialized ::
        (([] : List String).flatMap
            (serveLine (fun _ => true) (fun _ => Except.error "bad zip")) ++
          .failure "bad zip" ::
            ["next.docx"].flatMap
              (serveLine (fun _ => true) (fun _ => Except.error "bad zip"))) :=
  conversion_error_isolated (fun _ => true) (fun _ => Except.error "bad zip")
    [] ["next.docx"] "doc.docx" "bad zip" (by decide) rfl rfl

/-- C9: strip_image_data changes nothing except the image field of
picture entries: bindings keep their count, positions and keys, every
binding whose key is not pictures keeps its value, each picture entry
keeps every field except image, a dict without a pictures key comes
back entirely unchanged, and applying the function twice equals
applying it once. -/
theorem strip_image_data_frame
    (e e' : List (String × JVal))
    (h : strip_image_data e = .ok e') :
    (e'.length = e.length ∧
      ∀ i, i < e.length →
        ∃ kv kv', e[i]? = some kv ∧ e'[i]? = some kv' ∧ kv'.1 = kv.1 ∧
          (kv.1 ≠ "pictures" → kv' = kv)) ∧
    (∀ pics, lookupJ e "pictures" = some (.arr pics) →
      ∃ pics', lookupJ e' "pictures" = some (.arr pics') ∧
        pics'.length = pics.length ∧
        ∀ i, i < pics.length → ∃ fls, pics[i]? = some (.obj fls) ∧
          pics'[i]? = some (.obj (fls.filter (fun kv => kv.1 ≠ "image")))) ∧
    (lookupJ e "pictures" = none → e' = e) ∧
    strip_image_data e' = .ok e' := by
  unfold strip_image_data at h
  cases hl : lookupJ e "pictures" with
  | none =>
    simp only [hl] at h
    injection h with h
    subst h
    refine ⟨⟨rfl, ?_⟩, ?_, fun _ => rfl, ?_⟩
    · intro i hi
      refine ⟨e[i], e[i], List.getElem?_eq_getElem hi,
        List.getElem?_eq_getElem hi, rfl, fun _ => rfl⟩
    · intro pics hp
      exact absurd hp (by simp)
    · simp only [strip_image_data, hl]
  | some val =>
    cases val with
    | arr pics =>
      simp only [hl] at h
      cases hsp : stripPics pics with
      | error e2 => exact Except.noConfusion (hsp ▸ h)
      | ok pics' =>
        simp only [hsp] at h
        injection h with h
        subst h
        obtain ⟨hlen, hget, hidem⟩ := stripPics_spec pics pics' hsp
        have hlook : lookupJ (setKey e "pictures" (.arr pics')) "pictures" =
            some (.arr pics') :=
          lookupJ_setKey_eq "pictures" (.arr pics') e (.arr pics) hl
        refine ⟨⟨setKey_length e _ _, ?_⟩, ?_, ?_, ?_⟩
        · intro i hi
          refine ⟨e[i], if e[i].1 = "pictures" then (e[i].1, .arr pics')
              else e[i], List.getElem?_eq_getElem hi, ?_, ?_, ?_⟩
          · rw [setKey_getElem, List.getElem?_eq_getElem hi]
            rfl
          · by_cases hp : e[i].1 = "pictures"
            · rw [if_pos hp]
            · rw [if_neg hp]
          · intro hp
            rw [if_neg hp]
        · intro pics2 hp2
          have : pics = pics2 := by
            simpa using hp2
          subst this
          exact ⟨pics', hlook, hlen, hget⟩
        · intro hnone
          exact absurd hnone (by simp)
        · simp only [strip_image_data, hlook, hidem, setKey_setKey]
    | str s => simp only [hl] at h; exact Except.noConfusion h
    | num n => simp only [hl] at h; exact Except.noConfusion h
    | bool b => simp only [hl] at h; exact Except.noConfusion h
    | null => simp only [hl] at h; exact Except.noConfusion h
    | obj fls => simp only [hl] at h; exact Except.noConfusion h

/-- C9 witness at a concrete extraction holding one picture entry with
an image payload and a caption. -/
theorem strip_image_data_frame_w :
    (([("name", JVal.str "d"),
       ("pictures", .arr [.obj [("image", .str "AAAA"), ("cap", .str "c")]])] :
        List (String × JVal)).length =
      ([("name", JVal.str "d"),
        ("pictures", .arr [.obj [("image", .str "AAAA"), ("cap", .str "c")]])] :
         List (String × JVal)).length ∧
      ∀ i, i < ([("name", JVal.str "d"),
          ("pictures", .arr [.obj [("image", .str "AAAA"), ("cap", .str "c")]])] :
           List (String × JVal)).length →
        ∃ kv kv',
          ([("name", JVal.str "d"),
            ("pictures",
              .arr [.obj [("image", .str "AAAA"), ("cap", .str "c")]])] :
             List (String × JVal))[i]? = some kv ∧
          ([("name", JVal.str "d"),
            ("pictures", .arr [.obj [("cap", .str "c")]])] :
             List (String × JVal))[i]? = some kv' ∧
          kv'.1 = kv.1 ∧ (kv.1 ≠ "pictures" → kv' = kv)) ∧
    (∀ pics,
      lookupJ [("name", JVal.str "d"),
        ("pictures", .arr [.obj [("image", .str "AAAA"), ("cap", .str "c")]])]
        "pictures" = some (.arr pics) →
      ∃ pics',
        lookupJ [("name", JVal.str "d"),
          ("pictures", .arr [.obj [("cap", .str "c")]])] "pictures" =
          some (.arr pics') ∧
        pics'.length = pics.length ∧
        ∀ i, i < pics.length → ∃ fls, pics[i]? = some (.obj fls) ∧
          pics'[i]? = some (.obj (fls.filter (fun kv => kv.1 ≠ "image")))) ∧
    (lookupJ [("name", JVal.str "d"),
        ("pictures", .arr [.obj [("image", .str "AAAA"), ("cap", .str "c")]])]
        "pictures" = none →
      ([("name", JVal.str "d"),
        ("pictures", .arr [.obj [("cap", .str "c")]])] :
         List (String × JVal)) =
        [("name", JVal.str "d"),
         ("pictures", .arr [.obj [("image", .str "AAAA"), ("cap", .str "c")]])]) ∧
    strip_image_data
        [("name", JVal.str "d"), ("pictures", .arr [.obj [("cap", .str "c")]])] =
      .ok [("name", JVal.str "d"), ("pictures", .arr [.obj [("cap", .str "c")]])] :=
  strip_image_data_frame
    [("name", JVal.str "d"),
     ("pictures", .arr [.obj [("image", .str "AAAA"), ("cap", .str "c")]])]
    [("name", JVal.str "d"), ("pictures", .arr [.obj [("cap", .str "c")]])]
    rfl

/-- C6: on a successful conversion the payload has wordCount the number
of whitespace-delimited tokens of the markdown text, charCount its
length, tableCount and imageCount the lengths of the tables and
pictures lists of the structured extraction, and extraction the
structured dict with the image field removed from every picture
entry. -/
theorem extract_success_payload
    (convert : String → Except String ConvDoc) (path md : String)
    (dict : List (String × JVal)) (pics tbls : List JVal)
    (hconv : convert path = .ok ⟨md, dict⟩)
    (hpics : lookupJ dict "pictures" = some (.arr pics))
    (hobj : ∀ p ∈ pics, ∃ fls, p = JVal.obj fls)
    (htbls : lookupJ dict "tables" = some (.arr tbls)) :
    ∃ pics', stripPics pics = .ok pics' ∧
      strip_image_data dict = .ok (setKey dict "pictures" (.arr pics')) ∧
      extract convert path = .ok
        { text := md
          wordCount := (pySplit md).length
          charCount := md.length
          tableCount := tbls.length
          imageCount := pics.length
          extraction := setKey dict "pictures" (.arr pics') } := by
  obtain ⟨pics', hsp⟩ := stripPics_of_obj pics hobj
  obtain ⟨hlen, -, -⟩ := stripPics_spec pics pics' hsp
  have hstrip : strip_image_data dict =
      .ok (setKey dict "pictures" (.arr pics')) := by
    simp only [strip_image_data, hpics, hsp]
  have htbl2 : lookupJ (setKey dict "pictures" (.arr pics')) "tables" =
      some (.arr tbls) := by
    rw [lookupJ_setKey_ne "pictures" "tables" (.arr pics') (by decide) dict]
    exact htbls
  have hpic2 : lookupJ (setKey dict "pictures" (.arr pics')) "pictures" =
      some (.arr pics') :=
    lookupJ_setKey_eq "pictures" (.arr pics') dict (.arr pics) hpics
  refine ⟨pics', hsp, hstrip, ?_⟩
  simp only [extract, hconv, hstrip, dictGet, htbl2, hpic2, Option.getD,
    pyLen, hlen]

/-- C6 witness at a concrete conversion result with one table and one
picture carrying an image payload. -/
theorem extract_success_payload_w :
    ∃ pics',
      stripPics [JVal.obj [("image", .str "AA"), ("cap", .str "c")]] =
        .ok pics' ∧
      strip_image_data
          [("tables", JVal.arr [.obj []]),
           ("pictures", .arr [.obj [("image", .str "AA"), ("cap", .str "c")]])] =
        .ok (setKey
          [("tables", JVal.arr [.obj []]),
           ("pictures", .arr [.obj [("image", .str "AA"), ("cap", .str "c")]])]
          "pictures" (.arr pics')) ∧
      extract
          (fun _ => Except.ok
            ⟨"Hello brave world",
             [("tables", JVal.arr [.obj []]),
              ("pictures",
                .arr [.obj [("image", .str "AA"), ("cap", .str "c")]])]⟩)
          "doc.docx" =
        .ok
          { text := "Hello brave world"
            wordCount := (pySplit "Hello brave world").length
            charCount := "Hello brave world".length
            tableCount := ([JVal.obj []] : List JVal).length
            imageCount :=
              ([JVal.obj [("image", .str "AA"), ("cap", .str "c")]] :
                List JVal).length
            extraction := setKey
              [("tables", JVal.arr [.obj []]),
               ("pictures",
                 .arr [.obj [("image", .str "AA"), ("cap", .str "c")]])]
              "pictures" (.arr pics') } :=
  extract_success_payload
    (fun _ => Except.ok
      ⟨"Hello brave world",
       [("tables", JVal.arr [.obj []]),
        ("pictures", .arr [.obj [("image", .str "AA"), ("cap", .str "c")]])]⟩)
    "doc.docx" "Hello brave world"
    [("tables", JVal.arr [.obj []]),
     ("pictures", .arr [.obj [("image", .str "AA"), ("cap", .str "c")]])]
    [JVal.obj [("image", .str "AA"), ("cap", .str "c")]] [JVal.obj []]
    rfl rfl
    (by
      intro p hp
      simp only [List.mem_singleton] at hp
      exact ⟨[("image", .str "AA"), ("cap", .str "c")], hp⟩)
    rfl

end DocxCorpus
